import Mathlib

/-!
Shallow embedding of `bam2fastq.cpp` (jts/bam2fastq): the streaming
read-classification and mate-pairing engine, together with the output
router and the run driver.  Definitions are translated from the C++
source; `machine` chars are modelled as Lean `Char`, byte values as `Nat`
with explicit `% 256` where the C++ narrowing conversion wraps.
-/

namespace Bam2Fastq

/-- BAM flag bit: the record is paired (`BAM_FPAIRED`). -/
def bamFPAIRED : Nat := 1

/-- BAM flag bit: the record is unmapped (`BAM_FUNMAP`). -/
def bamFUNMAP : Nat := 4

/-- BAM flag bit: the record is reverse-complemented (`BAM_FREVERSE`). -/
def bamFREVERSE : Nat := 16

/-- BAM flag bit: the record is read 1 of a pair (`BAM_FREAD1`). -/
def bamFREAD1 : Nat := 64

/-- BAM flag bit: the record failed QC (`BAM_FQCFAIL`). -/
def bamFQCFAIL : Nat := 512

/-- One decoded alignment record, as handed over by the external decoder
(`bam1_t` in the source): read name, flag word, packed sequence bytes
(two 4-bit base codes per byte), quality bytes, and `l_qseq`. -/
structure BamRec where
  name : String
  flag : Nat
  seq : List Nat
  qual : List Nat
  l_qseq : Nat
deriving DecidableEq

/-- Flag test `(b->core.flag & F)` as a boolean. -/
def hasFlag (r : BamRec) (f : Nat) : Bool := r.flag &&& f != 0

/-- The `bases` lookup table filled in `main` (bam2fastq.cpp:370-380);
`std::map<int,char>::operator[]` default-constructs `\0` for any index
that was never assigned. -/
def bases (i : Nat) : Char :=
  if i = 1 then 'A'
  else if i = 2 then 'C'
  else if i = 4 then 'G'
  else if i = 8 then 'T'
  else if i = 15 then 'N'
  else if i = 17 then 'T'
  else if i = 18 then 'G'
  else if i = 20 then 'C'
  else if i = 24 then 'A'
  else if i = 31 then 'N'
  else Char.ofNat 0

/-- `get_pair_name`: the raw read name (`bam1_qname`). -/
def get_pair_name (r : BamRec) : String := r.name

/-- `get_read_idx`: 0 for read 1 and 1 for read 2 (`!(flag & BAM_FREAD1)`). -/
def get_read_idx (r : BamRec) : Nat :=
  if hasFlag r bamFREAD1 then 0 else 1

/-- `get_read_name`: appends `/1` or `/2` to the pair name when the
record carries the paired flag. -/
def get_read_name (r : BamRec) : String :=
  get_pair_name r ++
    (if hasFlag r bamFPAIRED then (if get_read_idx r = 0 then "/1" else "/2") else "")

/-- `bam1_seqi(seq, i)`: the 4-bit base code of base `i`, high nibble
first within each byte. -/
def bam1_seqi (seq : List Nat) (i : Nat) : Nat :=
  (seq.getD (i / 2) 0 >>> (4 * (1 - i % 2))) &&& 15

/-- `get_sequence`: decode each base through `bases` (complement offset
+16 on the reverse strand), accumulating by appending one character at a
time as the C++ loop does, then reverse the whole string iff the offset
was nonzero. -/
def get_sequence (r : BamRec) : String :=
  let offset : Nat := if hasFlag r bamFREVERSE then 16 else 0
  let s : List Char :=
    (List.range r.l_qseq).foldl
      (fun acc i => acc ++ [bases (bam1_seqi r.seq i + offset)]) []
  ⟨if offset ≠ 0 then s.reverse else s⟩

/-- `get_qualities`: shift each quality byte by +33 (the `char`
conversion wraps modulo 256), then reverse iff the record is
reverse-strand. -/
def get_qualities (r : BamRec) : String :=
  let q : List Char :=
    (List.range r.l_qseq).foldl
      (fun acc i => acc ++ [Char.ofNat ((r.qual.getD i 0 + 33) % 256)]) []
  ⟨if hasFlag r bamFREVERSE then q.reverse else q⟩

/-- `mangle`: on a name of length at least 3 whose last character is a
digit and whose second-to-last character is not, `name.erase(len-2)`
drops everything from position `len-2` on, i.e. the final two
characters. -/
def mangle (name : String) : String :=
  let l := name.data
  if l.length < 3 then name
  else if (l.getD (l.length - 1) (Char.ofNat 0)).isDigit
          && !(l.getD (l.length - 2) (Char.ofNat 0)).isDigit
  then ⟨l.take (l.length - 2)⟩
  else name

/-- The pairing identity used for the mate buffer: the raw pair name,
mangled unless strict mode is on (bam2fastq.cpp:317-319). -/
def pairing_identity (strict : Bool) (name : String) : String :=
  if strict then name else mangle name

/-- Characters skipped by `istream` whitespace skipping (C locale). -/
def isStreamSpace (c : Char) : Bool :=
  c = ' ' || c = '\t' || c = '\n' || c = '\x0b' || c = '\x0c' || c = '\r'

/-- Decimal value of a digit string. -/
def digitsToNat (l : List Char) : Nat :=
  l.foldl (fun a c => 10 * a + (c.toNat - 48)) 0

/-- `istringstream >> int` (C++11 semantics): skip whitespace, an
optional sign, then decimal digits; extraction failure stores 0.
Overflow clamping is not modelled (the Lean `Int` is unbounded). -/
def istreamInt (l : List Char) : Int :=
  match l.dropWhile isStreamSpace with
  | [] => 0
  | c :: rest =>
    if c = '-' then
      (if rest.takeWhile Char.isDigit = [] then 0
       else -(digitsToNat (rest.takeWhile Char.isDigit) : Int))
    else if c = '+' then
      (if rest.takeWhile Char.isDigit = [] then 0
       else (digitsToNat (rest.takeWhile Char.isDigit) : Int))
    else
      (if (c :: rest).takeWhile Char.isDigit = [] then 0
       else (digitsToNat ((c :: rest).takeWhile Char.isDigit) : Int))

/-- `get_lane_id`: the integer between the first and the second colon of
the read name; 0 when a colon is missing or the field is empty. -/
def get_lane_id (name : String) : Int :=
  match name.data.findIdx? (fun c => c = ':') with
  | none => 0
  | some start =>
    let tail := name.data.drop (start + 1)
    match tail.findIdx? (fun c => c = ':') with
    | none => 0
    | some k => if k = 0 then 0 else istreamInt (tail.take k)

/-- The option-controlled globals of the program, gathered into one
configuration value (`save_aligned`, `save_unaligned`, `save_filtered`,
`overwrite_files`, `stdout_pairs`, `stdout_all`, `strict`, plus the BAM
path handed to `parse_bamfile`).  `print_msgs` is modelled as always on
(its default). -/
structure Config where
  save_aligned : Bool
  save_unaligned : Bool
  save_filtered : Bool
  overwrite_files : Bool
  stdout_pairs : Bool
  stdout_all : Bool
  strict : Bool
  bamFilename : String

/-- The `unPaired` buffer: `std::map<string,string>` modelled as an
association list with unique keys (the loop only inserts a key it just
failed to find). -/
def lookupKey : List (String × String) → String → Option String
  | [], _ => none
  | (k', v) :: rest, k => if k' = k then some v else lookupKey rest k

/-- Insertion of a fresh key (`unPaired[pairName] = ostr.str()`, reached
only when `find` failed). -/
def insertKey (m : List (String × String)) (k v : String) : List (String × String) :=
  m ++ [(k, v)]

/-- `unPaired.erase(position)`: drop the entry with the given key. -/
def eraseKey (m : List (String × String)) (k : String) : List (String × String) :=
  m.filter (fun p => decide (p.1 ≠ k))

/-- State of the `parse_bamfile` loop: the two counters, the mate
buffer, and the text written so far to each output slot (one write log
per `ostream*` in the `output` vector). -/
structure LoopState where
  all_seen : Nat
  exported : Nat
  unPaired : List (String × String)
  out : List (List String)
deriving DecidableEq

/-- The four-line FASTQ block `ostr` built for every exported record. -/
def formatEntry (r : BamRec) : String :=
  "@" ++ get_read_name r ++ "\n" ++ get_sequence r ++ "\n+\n" ++ get_qualities r ++ "\n"

/-- The three `continue` conditions of the loop (bam2fastq.cpp:290-295). -/
def skipRecord (cfg : Config) (r : BamRec) : Bool :=
  (!cfg.save_aligned && !hasFlag r bamFUNMAP) ||
  (!cfg.save_unaligned && hasFlag r bamFUNMAP) ||
  (!cfg.save_filtered && hasFlag r bamFQCFAIL)

/-- The inclusion policy as the specification words it: pass the
aligned/unaligned gate selected by the unmapped bit, and the QC gate
selected by the QC-fail bit. -/
def passesPolicy (cfg : Config) (r : BamRec) : Bool :=
  (if hasFlag r bamFUNMAP then cfg.save_unaligned else cfg.save_aligned) &&
  (!hasFlag r bamFQCFAIL || cfg.save_filtered)

/-- The pairing key the loop computes for a record. -/
def keyOf (cfg : Config) (r : BamRec) : String :=
  pairing_identity cfg.strict (get_pair_name r)

/-- Write log of slot `i`. -/
def slotAt (s : LoopState) (i : Nat) : List String := s.out.getD i []

/-- Append one write to slot `i` of a write-log vector. -/
def writeOut (o : List (List String)) (i : Nat) (e : String) : List (List String) :=
  o.set i (o.getD i [] ++ [e])

/-- `*output[i] << e`. -/
def writeSlot (s : LoopState) (i : Nat) (e : String) : LoopState :=
  { s with out := writeOut s.out i e }

/-- One iteration of the `do … while` loop of `parse_bamfile`
(bam2fastq.cpp:288-342). -/
def step (cfg : Config) (s : LoopState) (r : BamRec) : LoopState :=
  let s1 := { s with all_seen := s.all_seen + 1 }
  if skipRecord cfg r then s1
  else
    let s2 := { s1 with exported := s1.exported + 1 }
    let entry := formatEntry r
    if s2.out.length = 1 then writeSlot s2 0 entry
    else if !hasFlag r bamFPAIRED then writeSlot s2 2 entry
    else
      match lookupKey s2.unPaired (keyOf cfg r) with
      | none => { s2 with unPaired := insertKey s2.unPaired (keyOf cfg r) entry }
      | some stored =>
        let s3 :=
          if get_read_idx r = 0
          then writeSlot (writeSlot s2 0 entry) 1 stored
          else writeSlot (writeSlot s2 0 stored) 1 entry
        { s3 with unPaired := eraseKey s3.unPaired (keyOf cfg r) }

/-- The whole record loop, given the decoded stream in file order. -/
def processList (cfg : Config) (s : LoopState) (rs : List BamRec) : LoopState :=
  rs.foldl (step cfg) s

/-- The end-of-stream flush (bam2fastq.cpp:351-355): every buffered
entry is written to `output[2]`; the map itself then goes out of scope. -/
def flushUnpaired (s : LoopState) : LoopState :=
  { s with out := s.out.set 2 (s.out.getD 2 [] ++ s.unPaired.map Prod.snd) }

/-- The run summary printed when `print_msgs` is set
(bam2fastq.cpp:363-366): exactly two lines, total seen and total
exported. -/
def summaryOf (s : LoopState) : List String :=
  [toString s.all_seen ++ " sequences in the BAM file",
   toString s.exported ++ " sequences exported"]

/-- An output destination: the process standard output, or a file opened
for (truncating) write. -/
inductive Sink where
  | stdout : Sink
  | file : String → Sink
deriving DecidableEq

/-- Result of router initialization: the slot vector, the files opened
(truncated) by it, and everything it printed to stderr. -/
structure InitResult where
  slots : List Sink
  created : List String
  diag : List String
deriving DecidableEq

/-- `initialize_all_stdout`. -/
def initialize_all_stdout : InitResult :=
  ⟨[Sink.stdout], [], []⟩

/-- `initialize_paired_stdout`: two slots aliasing stdout plus an
unconditionally opened `unpaired_reads.fastq` (plain `ios_base::out`,
which truncates, with no existence check). -/
def initialize_paired_stdout : InitResult :=
  ⟨[Sink.stdout, Sink.stdout, Sink.file "unpaired_reads.fastq"],
   ["unpaired_reads.fastq"], []⟩

/-- Decimal digits, fuel-based so that the kernel can evaluate it (the
fuel `n + 1` always suffices: a number needs at most `n + 1` divisions
by ten). -/
def natDecimalCore : Nat → Nat → List Char
  | 0, _ => []
  | fuel + 1, n =>
    if n < 10 then [Char.ofNat (48 + n)]
    else natDecimalCore fuel (n / 10) ++ [Char.ofNat (48 + n % 10)]

/-- Decimal digits of a natural number, most significant first
(`ostringstream << n`). -/
def natDecimal (n : Nat) : List Char := natDecimalCore (n + 1) n

/-- `ostringstream << lane` for an `int`. -/
def intDecimal (i : Int) : List Char :=
  if i < 0 then '-' :: natDecimal i.natAbs else natDecimal i.natAbs

/-- `s.replace(s.find(c), 1, sub)`: replace the first occurrence of `c`
(no occurrence: identity, matching the guarded call sites). -/
def replaceFirst : List Char → Char → List Char → List Char
  | [], _, _ => []
  | c :: rest, m, sub =>
    if c = m then sub ++ rest else c :: replaceFirst rest m sub

/-- The output name template after `%` → lane substitution. -/
def laneSubst (tpl : String) (lane : Int) : List Char :=
  replaceFirst tpl.data '%' (intDecimal lane)

/-- A concrete output filename: `#` → `_1` / `_2` / `_M` in the
lane-substituted template. -/
def outFile (tpl : String) (lane : Int) (suffix : List Char) : String :=
  ⟨replaceFirst (laneSubst tpl lane) '#' suffix⟩

/-- Diagnostic printed when `%` is in the template but the lane is 0. -/
def laneFailMsg : String :=
  "The lane could not be determined from the reads.  Specify output files\n(using --output) that do not include the lane number (%)"

/-- Diagnostic printed when the template has no `#` (typo as in the source). -/
def hashFailMsg : String :=
  "Plesae ensure that the output filename (--output) includes\na # symbol to be replaced with the read number"

/-- Informational message printed before the existence checks. -/
def infoMsg (tpl : String) (lane : Int) : String :=
  "This looks like paired data from lane " ++ String.mk (intDecimal lane) ++
    ".\nOutput will be in " ++ outFile tpl lane ['_', '1'] ++ " and " ++
    outFile tpl lane ['_', '2'] ++
    "\nSingle-end reads will be in " ++ outFile tpl lane ['_', 'M']

/-- Diagnostic printed when a primary output file already exists. -/
def existsMsg (f : String) : String :=
  "ERROR: " ++ f ++ " already exists.  Specify --force to overwrite"

/-- `initialize_output` (bam2fastq.cpp:187-249): substitute `%` (failing
when the lane is 0), require a `#`, derive the three filenames, refuse to
overwrite `_1`/`_2` unless forced (`_M` is never tested), and only then
open the three files. -/
def initialize_output (fe : String → Bool) (ow : Bool) (tpl : String) (lane : Int) :
    InitResult :=
  if '%' ∈ tpl.data ∧ lane = 0 then ⟨[], [], [laneFailMsg]⟩
  else if '#' ∉ laneSubst tpl lane then ⟨[], [], [hashFailMsg]⟩
  else if !ow && fe (outFile tpl lane ['_', '1']) then
    ⟨[], [], [infoMsg tpl lane, existsMsg (outFile tpl lane ['_', '1'])]⟩
  else if !ow && fe (outFile tpl lane ['_', '2']) then
    ⟨[], [], [infoMsg tpl lane, existsMsg (outFile tpl lane ['_', '2'])]⟩
  else
    ⟨[Sink.file (outFile tpl lane ['_', '1']), Sink.file (outFile tpl lane ['_', '2']),
      Sink.file (outFile tpl lane ['_', 'M'])],
     [outFile tpl lane ['_', '1'], outFile tpl lane ['_', '2'], outFile tpl lane ['_', 'M']],
     [infoMsg tpl lane]⟩

/-- The mode dispatch of `parse_bamfile` (bam2fastq.cpp:273-280). -/
def routerInit (cfg : Config) (fe : String → Bool) (tpl : String) (lane : Int) :
    InitResult :=
  if cfg.stdout_pairs then initialize_paired_stdout
  else if cfg.stdout_all then initialize_all_stdout
  else initialize_output fe cfg.overwrite_files tpl lane

/-- Outcome of one whole run: the process exit status (`main` returns 0
after `parse_bamfile` on every path that reaches it, bam2fastq.cpp:410-411),
everything printed to stderr, the lane id computed from the first
record, and the final loop state (`none` when the run aborted before the
record loop). -/
structure RunResult where
  exit : Nat
  diag : List String
  lane : Int
  state : Option LoopState
deriving DecidableEq

/-- `parse_bamfile` followed by `main`'s `return 0`.  `input` is `none`
when `samopen` fails, else the first record (already read for the lane
id) and the rest of the stream. -/
def parse_bamfile (cfg : Config) (fe : String → Bool) (tpl : String)
    (input : Option (BamRec × List BamRec)) : RunResult :=
  match input with
  | none => ⟨0, ["Could not open " ++ cfg.bamFilename], 0, none⟩
  | some (first, rest) =>
    let lane := get_lane_id first.name
    let ir := routerInit cfg fe tpl lane
    if ir.slots.isEmpty then ⟨0, ir.diag, lane, none⟩
    else
      let s0 : LoopState := ⟨0, 0, [], ir.slots.map (fun _ => [])⟩
      let s2 := flushUnpaired (processList cfg s0 (first :: rest))
      ⟨0, ir.diag ++ summaryOf s2, lane, some s2⟩

/-! ### Association-list lemmas for the mate buffer -/

theorem lookupKey_append (m m' : List (String × String)) (k : String) :
    lookupKey (m ++ m') k =
      (match lookupKey m k with
       | some v => some v
       | none => lookupKey m' k) := by
  induction m with
  | nil => simp [lookupKey]
  | cons p rest ih =>
    obtain ⟨k', v⟩ := p
    by_cases h : k' = k <;> simp [lookupKey, h, ih]

theorem lookupKey_insert_self (m : List (String × String)) (k v : String)
    (h : lookupKey m k = none) : lookupKey (insertKey m k v) k = some v := by
  simp [insertKey, lookupKey_append, h, lookupKey]

theorem lookupKey_insert_ne (m : List (String × String)) (k v : String) (k' : String)
    (h : k' ≠ k) : lookupKey (insertKey m k v) k' = lookupKey m k' := by
  rw [insertKey, lookupKey_append]
  cases hm : lookupKey m k' <;> simp [lookupKey, Ne.symm h]

theorem lookupKey_erase_self (m : List (String × String)) (k : String) :
    lookupKey (eraseKey m k) k = none := by
  induction m with
  | nil => rfl
  | cons p rest ih =>
    obtain ⟨a, b⟩ := p
    have ih' := ih
    rw [eraseKey] at ih'
    simp only [decide_not] at ih'
    rw [eraseKey, List.filter_cons]
    by_cases h : a = k
    · simp [h, ih']
    · simp [lookupKey, h, ih']

theorem lookupKey_erase_ne (m : List (String × String)) (k k' : String)
    (h : k' ≠ k) : lookupKey (eraseKey m k) k' = lookupKey m k' := by
  induction m with
  | nil => rfl
  | cons p rest ih =>
    obtain ⟨a, b⟩ := p
    have ih' := ih
    rw [eraseKey] at ih'
    simp only [decide_not] at ih'
    rw [eraseKey, List.filter_cons]
    by_cases hak : a = k
    · subst hak
      simp [lookupKey, Ne.symm h, ih']
    · by_cases hak' : a = k' <;> simp [lookupKey, hak, hak', h, ih']

theorem mem_snd_of_lookupKey (m : List (String × String)) (k v : String)
    (h : lookupKey m k = some v) : v ∈ m.map Prod.snd := by
  induction m with
  | nil => simp [lookupKey] at h
  | cons p rest ih =>
    obtain ⟨a, b⟩ := p
    by_cases hak : a = k
    · simp [lookupKey, hak] at h
      simp [h]
    · simp [lookupKey, hak] at h
      simp [ih h]

/-! ### Shape lemmas for one loop iteration -/

theorem skipRecord_eq_not_passesPolicy (cfg : Config) (r : BamRec) :
    skipRecord cfg r = !passesPolicy cfg r := by
  cases h1 : hasFlag r bamFUNMAP <;> cases h2 : hasFlag r bamFQCFAIL <;>
    cases h3 : cfg.save_aligned <;> cases h4 : cfg.save_unaligned <;>
    cases h5 : cfg.save_filtered <;>
    simp [skipRecord, passesPolicy, h1, h2, h3, h4, h5]

theorem step_skip (cfg : Config) (s : LoopState) (r : BamRec)
    (h : skipRecord cfg r = true) :
    step cfg s r = { s with all_seen := s.all_seen + 1 } := by
  simp [step, h]

theorem step_single (cfg : Config) (s : LoopState) (r : BamRec)
    (h : skipRecord cfg r = false) (hlen : s.out.length = 1) :
    step cfg s r =
      { s with
        all_seen := s.all_seen + 1
        exported := s.exported + 1
        out := writeOut s.out 0 (formatEntry r) } := by
  simp [step, h, hlen, writeSlot]

theorem step_unpaired (cfg : Config) (s : LoopState) (r : BamRec)
    (h : skipRecord cfg r = false) (hlen : s.out.length ≠ 1)
    (hp : hasFlag r bamFPAIRED = false) :
    step cfg s r =
      { s with
        all_seen := s.all_seen + 1
        exported := s.exported + 1
        out := writeOut s.out 2 (formatEntry r) } := by
  simp [step, h, hlen, hp, writeSlot]

theorem step_insert (cfg : Config) (s : LoopState) (r : BamRec)
    (h : skipRecord cfg r = false) (hlen : s.out.length ≠ 1)
    (hp : hasFlag r bamFPAIRED = true)
    (hl : lookupKey s.unPaired (keyOf cfg r) = none) :
    step cfg s r =
      { s with
        all_seen := s.all_seen + 1
        exported := s.exported + 1
        unPaired := insertKey s.unPaired (keyOf cfg r) (formatEntry r) } := by
  simp [step, h, hlen, hp, hl]

theorem step_match0 (cfg : Config) (s : LoopState) (r : BamRec) (v : String)
    (h : skipRecord cfg r = false) (hlen : s.out.length ≠ 1)
    (hp : hasFlag r bamFPAIRED = true)
    (hl : lookupKey s.unPaired (keyOf cfg r) = some v)
    (hidx : get_read_idx r = 0) :
    step cfg s r =
      { s with
        all_seen := s.all_seen + 1
        exported := s.exported + 1
        unPaired := eraseKey s.unPaired (keyOf cfg r)
        out := writeOut (writeOut s.out 0 (formatEntry r)) 1 v } := by
  simp [step, h, hlen, hp, hl, hidx, writeSlot]

theorem step_match1 (cfg : Config) (s : LoopState) (r : BamRec) (v : String)
    (h : skipRecord cfg r = false) (hlen : s.out.length ≠ 1)
    (hp : hasFlag r bamFPAIRED = true)
    (hl : lookupKey s.unPaired (keyOf cfg r) = some v)
    (hidx : get_read_idx r = 1) :
    step cfg s r =
      { s with
        all_seen := s.all_seen + 1
        exported := s.exported + 1
        unPaired := eraseKey s.unPaired (keyOf cfg r)
        out := writeOut (writeOut s.out 0 v) 1 (formatEntry r) } := by
  have hidx' : get_read_idx r ≠ 0 := by omega
  simp [step, h, hlen, hp, hl, hidx', writeSlot]

theorem writeOut_length (o : List (List String)) (i : Nat) (e : String) :
    (writeOut o i e).length = o.length := by
  simp [writeOut]

theorem get_read_idx_eq_zero_or_one (r : BamRec) :
    get_read_idx r = 0 ∨ get_read_idx r = 1 := by
  unfold get_read_idx
  by_cases h : hasFlag r bamFREAD1 <;> simp [h]

theorem step_shape (cfg : Config) (s : LoopState) (r : BamRec) :
    (step cfg s r).all_seen = s.all_seen + 1 ∧
    (step cfg s r).exported = s.exported + (if skipRecord cfg r then 0 else 1) ∧
    (step cfg s r).out.length = s.out.length := by
  by_cases h : skipRecord cfg r
  · simp [step_skip cfg s r h, h]
  · have h' : skipRecord cfg r = false := by simpa using h
    by_cases hlen : s.out.length = 1
    · simp [step_single cfg s r h' hlen, h', writeOut_length]
    · by_cases hp : hasFlag r bamFPAIRED
      · cases hl : lookupKey s.unPaired (keyOf cfg r) with
        | none => simp [step_insert cfg s r h' hlen hp hl, h']
        | some v =>
          rcases get_read_idx_eq_zero_or_one r with hidx | hidx
          · simp [step_match0 cfg s r v h' hlen hp hl hidx, h', writeOut_length]
          · simp [step_match1 cfg s r v h' hlen hp hl hidx, h', writeOut_length]
      · have hp' : hasFlag r bamFPAIRED = false := by simpa using hp
        simp [step_unpaired cfg s r h' hlen hp', h', writeOut_length]

theorem step_all_seen (cfg : Config) (s : LoopState) (r : BamRec) :
    (step cfg s r).all_seen = s.all_seen + 1 :=
  (step_shape cfg s r).1

theorem step_exported (cfg : Config) (s : LoopState) (r : BamRec) :
    (step cfg s r).exported = s.exported + (if skipRecord cfg r then 0 else 1) :=
  (step_shape cfg s r).2.1

theorem step_out_length (cfg : Config) (s : LoopState) (r : BamRec) :
    (step cfg s r).out.length = s.out.length :=
  (step_shape cfg s r).2.2

/-! ### Generic list lemmas -/

theorem foldl_push_eq_map {α β : Type} (f : α → β) (l : List α) (acc : List β) :
    l.foldl (fun a i => a ++ [f i]) acc = acc ++ l.map f := by
  induction l generalizing acc with
  | nil => simp
  | cons x xs ih => simp [ih]

theorem getD_append_two_fst (xs : List Char) (a b x : Char) :
    (xs ++ [a, b]).getD xs.length x = a := by
  induction xs with
  | nil => rfl
  | cons y ys ih => simpa using ih

theorem getD_append_two_snd (xs : List Char) (a b x : Char) :
    (xs ++ [a, b]).getD (xs.length + 1) x = b := by
  induction xs with
  | nil => rfl
  | cons y ys ih => simpa using ih

/-! ### Buffer-preservation and simulation lemmas -/

theorem passesPolicy_of_not_skip (cfg : Config) (r : BamRec)
    (h : skipRecord cfg r = false) : passesPolicy cfg r = true := by
  have he := skipRecord_eq_not_passesPolicy cfg r
  rw [h] at he
  cases hpp : passesPolicy cfg r
  · rw [hpp] at he; simp at he
  · rfl

theorem skip_of_not_passes (cfg : Config) (r : BamRec)
    (h : passesPolicy cfg r = false) : skipRecord cfg r = true := by
  rw [skipRecord_eq_not_passesPolicy, h]
  rfl

theorem processList_out_length (cfg : Config) (rs : List BamRec) :
    ∀ s : LoopState, (processList cfg s rs).out.length = s.out.length := by
  induction rs with
  | nil => intro s; rfl
  | cons r rest ih =>
    intro s
    have h1 : processList cfg s (r :: rest) = processList cfg (step cfg s r) rest := rfl
    rw [h1, ih (step cfg s r), step_out_length]

theorem step_lookup_none (cfg : Config) (s : LoopState) (r' : BamRec) (k : String)
    (h : lookupKey s.unPaired k = none)
    (hr : keyOf cfg r' = k → ¬(passesPolicy cfg r' = true ∧ hasFlag r' bamFPAIRED = true)) :
    lookupKey (step cfg s r').unPaired k = none := by
  by_cases hskip : skipRecord cfg r' = true
  · rw [step_skip cfg s r' hskip]; exact h
  · have hskip' : skipRecord cfg r' = false := by simpa using hskip
    by_cases hlen1 : s.out.length = 1
    · rw [step_single cfg s r' hskip' hlen1]; exact h
    · by_cases hp : hasFlag r' bamFPAIRED
      · by_cases hk : keyOf cfg r' = k
        · exact absurd ⟨passesPolicy_of_not_skip cfg r' hskip', hp⟩ (hr hk)
        · cases hl : lookupKey s.unPaired (keyOf cfg r') with
          | none =>
            rw [step_insert cfg s r' hskip' hlen1 hp hl]
            rw [lookupKey_insert_ne _ _ _ _ (Ne.symm hk)]
            exact h
          | some v =>
            rcases get_read_idx_eq_zero_or_one r' with hidx | hidx
            · rw [step_match0 cfg s r' v hskip' hlen1 hp hl hidx]
              rw [lookupKey_erase_ne _ _ _ (Ne.symm hk)]
              exact h
            · rw [step_match1 cfg s r' v hskip' hlen1 hp hl hidx]
              rw [lookupKey_erase_ne _ _ _ (Ne.symm hk)]
              exact h
      · have hp' : hasFlag r' bamFPAIRED = false := by simpa using hp
        rw [step_unpaired cfg s r' hskip' hlen1 hp']
        exact h

theorem processList_lookup_none (cfg : Config) (k : String) (rs : List BamRec) :
    ∀ s : LoopState, lookupKey s.unPaired k = none →
    (∀ r' ∈ rs, keyOf cfg r' = k →
      ¬(passesPolicy cfg r' = true ∧ hasFlag r' bamFPAIRED = true)) →
    lookupKey (processList cfg s rs).unPaired k = none := by
  induction rs with
  | nil => intro s h _; exact h
  | cons r rest ih =>
    intro s h hall
    have h1 : processList cfg s (r :: rest) = processList cfg (step cfg s r) rest := rfl
    rw [h1]
    exact ih (step cfg s r)
      (step_lookup_none cfg s r k h (hall r (List.mem_cons_self r rest)))
      (fun q hq => hall q (List.mem_cons_of_mem r hq))

theorem step_sim (cfg : Config) (k e : String) (s1 s2 : LoopState) (r' : BamRec)
    (hout : s1.out = s2.out) (hlen : s1.out.length = 3)
    (h1 : lookupKey s1.unPaired k = some e)
    (h2 : lookupKey s2.unPaired k = none)
    (hexc : ∀ k', k' ≠ k → lookupKey s1.unPaired k' = lookupKey s2.unPaired k')
    (hr : keyOf cfg r' = k → ¬(passesPolicy cfg r' = true ∧ hasFlag r' bamFPAIRED = true)) :
    (step cfg s1 r').out = (step cfg s2 r').out ∧
    lookupKey (step cfg s1 r').unPaired k = some e ∧
    lookupKey (step cfg s2 r').unPaired k = none ∧
    ∀ k', k' ≠ k →
      lookupKey (step cfg s1 r').unPaired k' = lookupKey (step cfg s2 r').unPaired k' := by
  have hlen2 : s2.out.length = 3 := by rw [← hout]; exact hlen
  have hlen1' : s1.out.length ≠ 1 := by omega
  have hlen2' : s2.out.length ≠ 1 := by omega
  by_cases hskip : skipRecord cfg r' = true
  · rw [step_skip cfg s1 r' hskip, step_skip cfg s2 r' hskip]
    exact ⟨hout, h1, h2, hexc⟩
  · have hskip' : skipRecord cfg r' = false := by simpa using hskip
    by_cases hp : hasFlag r' bamFPAIRED
    · by_cases hk : keyOf cfg r' = k
      · exact absurd ⟨passesPolicy_of_not_skip cfg r' hskip', hp⟩ (hr hk)
      · have hlk : lookupKey s1.unPaired (keyOf cfg r') =
            lookupKey s2.unPaired (keyOf cfg r') := hexc _ hk
        cases hl2 : lookupKey s2.unPaired (keyOf cfg r') with
        | none =>
          have hl1 : lookupKey s1.unPaired (keyOf cfg r') = none := by rw [hlk, hl2]
          rw [step_insert cfg s1 r' hskip' hlen1' hp hl1,
              step_insert cfg s2 r' hskip' hlen2' hp hl2]
          refine ⟨hout, ?_, ?_, ?_⟩
          · rw [lookupKey_insert_ne _ _ _ _ (Ne.symm hk)]; exact h1
          · rw [lookupKey_insert_ne _ _ _ _ (Ne.symm hk)]; exact h2
          · intro k' hk'
            by_cases hkk : k' = keyOf cfg r'
            · subst hkk
              rw [lookupKey_insert_self _ _ _ hl1, lookupKey_insert_self _ _ _ hl2]
            · rw [lookupKey_insert_ne _ _ _ _ hkk, lookupKey_insert_ne _ _ _ _ hkk]
              exact hexc k' hk'
        | some v =>
          have hl1 : lookupKey s1.unPaired (keyOf cfg r') = some v := by rw [hlk, hl2]
          have hrest : ∀ (u1 u2 : LoopState), u1.unPaired = eraseKey s1.unPaired (keyOf cfg r') →
              u2.unPaired = eraseKey s2.unPaired (keyOf cfg r') → u1.out = u2.out →
              u1.out = u2.out ∧
              lookupKey u1.unPaired k = some e ∧ lookupKey u2.unPaired k = none ∧
              ∀ k', k' ≠ k → lookupKey u1.unPaired k' = lookupKey u2.unPaired k' := by
            intro u1 u2 hu1 hu2 huo
            refine ⟨huo, ?_, ?_, ?_⟩
            · rw [hu1, lookupKey_erase_ne _ _ _ (Ne.symm hk)]; exact h1
            · rw [hu2, lookupKey_erase_ne _ _ _ (Ne.symm hk)]; exact h2
            · intro k' hk'
              by_cases hkk : k' = keyOf cfg r'
              · subst hkk
                rw [hu1, hu2, lookupKey_erase_self, lookupKey_erase_self]
              · rw [hu1, hu2, lookupKey_erase_ne _ _ _ hkk, lookupKey_erase_ne _ _ _ hkk]
                exact hexc k' hk'
          rcases get_read_idx_eq_zero_or_one r' with hidx | hidx
          · rw [step_match0 cfg s1 r' v hskip' hlen1' hp hl1 hidx,
                step_match0 cfg s2 r' v hskip' hlen2' hp hl2 hidx]
            exact hrest _ _ rfl rfl (by rw [hout])
          · rw [step_match1 cfg s1 r' v hskip' hlen1' hp hl1 hidx,
                step_match1 cfg s2 r' v hskip' hlen2' hp hl2 hidx]
            exact hrest _ _ rfl rfl (by rw [hout])
    · have hp' : hasFlag r' bamFPAIRED = false := by simpa using hp
      rw [step_unpaired cfg s1 r' hskip' hlen1' hp',
          step_unpaired cfg s2 r' hskip' hlen2' hp']
      exact ⟨by rw [hout], h1, h2, hexc⟩

theorem processList_sim (cfg : Config) (k e : String) (rs : List BamRec) :
    ∀ s1 s2 : LoopState, s1.out = s2.out → s1.out.length = 3 →
    lookupKey s1.unPaired k = some e → lookupKey s2.unPaired k = none →
    (∀ k', k' ≠ k → lookupKey s1.unPaired k' = lookupKey s2.unPaired k') →
    (∀ r' ∈ rs, keyOf cfg r' = k →
      ¬(passesPolicy cfg r' = true ∧ hasFlag r' bamFPAIRED = true)) →
    (processList cfg s1 rs).out = (processList cfg s2 rs).out ∧
    lookupKey (processList cfg s1 rs).unPaired k = some e := by
  induction rs with
  | nil => intro s1 s2 hout _ h1 _ _ _; exact ⟨hout, h1⟩
  | cons r' rest ih =>
    intro s1 s2 hout hlen h1 h2 hexc hall
    obtain ⟨ho, ha, hb, hc⟩ := step_sim cfg k e s1 s2 r' hout hlen h1 h2 hexc
      (hall r' (List.mem_cons_self r' rest))
    have hlen' : (step cfg s1 r').out.length = 3 := by rw [step_out_length]; exact hlen
    exact ih (step cfg s1 r') (step cfg s2 r') ho hlen' ha hb hc
      (fun q hq => hall q (List.mem_cons_of_mem r' hq))

theorem flush_slot2 (t : LoopState) (h : t.out.length = 3) :
    slotAt (flushUnpaired t) 2 = slotAt t 2 ++ t.unPaired.map Prod.snd := by
  cases t with
  | mk a e up out =>
    obtain ⟨o0, o1, o2, ho⟩ := List.length_eq_three.mp h
    subst ho
    simp [flushUnpaired, slotAt]

/-! ### Decimal rendering and template substitution lemmas -/

theorem natDecimalCore_digits (fuel : Nat) :
    ∀ n : Nat, ∀ c ∈ natDecimalCore fuel n, c.isDigit = true := by
  induction fuel with
  | zero => intro n c hc; simp [natDecimalCore] at hc
  | succ fuel ih =>
    intro n c hc
    rw [natDecimalCore] at hc
    split at hc
    · simp only [List.mem_singleton] at hc
      subst hc
      rename_i h
      interval_cases n <;> decide
    · rw [List.mem_append] at hc
      rcases hc with hc | hc
      · exact ih (n / 10) c hc
      · simp only [List.mem_singleton] at hc
        subst hc
        have h10 : n % 10 < 10 := Nat.mod_lt _ (by omega)
        revert h10
        generalize n % 10 = m
        intro h10
        interval_cases m <;> decide

theorem natDecimal_digits (n : Nat) : ∀ c ∈ natDecimal n, c.isDigit = true :=
  natDecimalCore_digits (n + 1) n

theorem intDecimal_not_marker (i : Int) (c : Char) (hc : c ∈ intDecimal i) :
    c ≠ '#' ∧ c ≠ '%' := by
  unfold intDecimal at hc
  have digit_case : ∀ d : Char, d.isDigit = true → d ≠ '#' ∧ d ≠ '%' := by
    intro d hd
    constructor <;> rintro rfl <;> simp at hd
  split at hc
  · rcases List.mem_cons.mp hc with rfl | hc
    · exact ⟨by decide, by decide⟩
    · exact digit_case c (natDecimal_digits _ c hc)
  · exact digit_case c (natDecimal_digits _ c hc)

theorem mem_replaceFirst_iff (l : List Char) (m : Char) (sub : List Char) (c : Char)
    (hcm : c ≠ m) (hcs : c ∉ sub) : c ∈ replaceFirst l m sub ↔ c ∈ l := by
  induction l with
  | nil => simp [replaceFirst]
  | cons a rest ih =>
    by_cases ham : a = m
    · subst ham
      simp [replaceFirst, hcs, hcm]
    · simp [replaceFirst, ham, ih]

theorem replaceFirst_ne_of_ne (l : List Char) (m : Char) (a b : List Char)
    (hm : m ∈ l) (hlen : a.length = b.length) (hab : a ≠ b) :
    replaceFirst l m a ≠ replaceFirst l m b := by
  induction l with
  | nil => simp at hm
  | cons x rest ih =>
    by_cases hxm : x = m
    · subst hxm
      simp only [replaceFirst, if_pos rfl]
      intro h
      exact hab (List.append_inj h hlen).1
    · have hm' : m ∈ rest := by
        rcases List.mem_cons.mp hm with hh | hh
        · exact absurd hh.symm hxm
        · exact hh
      simp only [replaceFirst, if_neg hxm]
      intro h
      exact ih hm' (List.cons_injective h)

theorem hash_mem_laneSubst_iff (tpl : String) (lane : Int) :
    '#' ∈ laneSubst tpl lane ↔ '#' ∈ tpl.data := by
  refine mem_replaceFirst_iff tpl.data _ _ _ (by decide) ?_
  intro hmem
  exact (intDecimal_not_marker lane _ hmem).1 rfl

theorem outFile_ne (tpl : String) (lane : Int) (a b : List Char)
    (hhash : '#' ∈ laneSubst tpl lane) (hlen : a.length = b.length) (hab : a ≠ b) :
    outFile tpl lane a ≠ outFile tpl lane b := by
  intro h
  exact replaceFirst_ne_of_ne (laneSubst tpl lane) _ a b hhash hlen hab
    (congrArg String.data h)

/-! ### Lane-id parsing lemmas -/

theorem findIdx?_not_mem (l : List Char) (m : Char) (h : m ∉ l) (i : Nat) :
    List.findIdx? (fun c => decide (c = m)) l i = none := by
  induction l generalizing i with
  | nil => exact List.findIdx?_nil
  | cons a rest ih =>
    have ham : a ≠ m := fun he => h (he ▸ List.mem_cons_self a rest)
    rw [List.findIdx?_cons, if_neg (by simp [ham])]
    exact ih (fun hm => h (List.mem_cons_of_mem a hm)) (i + 1)

theorem findIdx?_first_mem (pre : List Char) (m : Char) (rest : List Char)
    (h : m ∉ pre) (i : Nat) :
    List.findIdx? (fun c => decide (c = m)) (pre ++ m :: rest) i = some (pre.length + i) := by
  induction pre generalizing i with
  | nil => simp [List.findIdx?_cons]
  | cons a pre' ih =>
    have ham : a ≠ m := fun he => h (he ▸ List.mem_cons_self a pre')
    rw [List.cons_append, List.findIdx?_cons, if_neg (by simp [ham])]
    rw [ih (fun hm => h (List.mem_cons_of_mem a hm)) (i + 1)]
    congr 1
    simp
    omega

theorem takeWhile_eq_nil_of_all_false (l : List Char) (p : Char → Bool)
    (h : ∀ c ∈ l, p c = false) : l.takeWhile p = [] := by
  cases l with
  | nil => rfl
  | cons a rest => simp [List.takeWhile_cons, h a (List.mem_cons_self a rest)]

theorem isStreamSpace_eq_false_of_digit (c : Char) (h : c.isDigit = true) :
    isStreamSpace c = false := by
  by_contra hs
  have hs' : isStreamSpace c = true := by
    cases hx : isStreamSpace c
    · exact absurd hx hs
    · rfl
  simp only [isStreamSpace, Bool.or_eq_true, decide_eq_true_eq] at hs'
  rcases hs' with ((((h1 | h1) | h1) | h1) | h1) | h1 <;> subst h1 <;> simp at h

/-! ### Claim theorems -/

/-- C2: reconstruction is a pure function of the packed sequence, packed
quality, length and reverse flag: on the forward strand the sequence is
the per-nibble `bases` image of each packed base and the quality is each
quality byte plus 33 (as a wrapping `char`); on the reverse strand the
sequence is the complement-table image (nibble + 16) reversed
element-for-element, and the quality is the shifted bytes reversed
element-for-element. -/
theorem c2_reconstruction (r : BamRec) :
    get_sequence r =
      (if hasFlag r bamFREVERSE = true
       then String.mk
         (((List.range r.l_qseq).map (fun i => bases (bam1_seqi r.seq i + 16))).reverse)
       else String.mk
         ((List.range r.l_qseq).map (fun i => bases (bam1_seqi r.seq i)))) ∧
    get_qualities r =
      (if hasFlag r bamFREVERSE = true
       then String.mk
         (((List.range r.l_qseq).map (fun i => Char.ofNat ((r.qual.getD i 0 + 33) % 256))).reverse)
       else String.mk
         ((List.range r.l_qseq).map (fun i => Char.ofNat ((r.qual.getD i 0 + 33) % 256)))) := by
  constructor
  · by_cases h : hasFlag r bamFREVERSE <;>
      simp [get_sequence, h, foldl_push_eq_map]
  · by_cases h : hasFlag r bamFREVERSE <;>
      simp [get_qualities, h, foldl_push_eq_map]

/-- C3 counterexample: the claim says a warning count equal to the mate
buffer's final size is reported in the run summary.  Two runs in
pairs-to-stdout mode — one whose only record is an orphaned paired read,
one whose only record is an unpaired read — produce identical stderr
output, yet their final buffer sizes differ (1 vs 0), so no count equal
to the buffer size is reported anywhere in the summary. -/
theorem c3_counterexample :
    (parse_bamfile ⟨true, true, true, false, true, false, false, "in.bam"⟩ (fun _ => false)
        "s_%#_sequence.txt" (some (⟨"x", 65, [18], [40, 40], 2⟩, []))).diag =
      (parse_bamfile ⟨true, true, true, false, true, false, false, "in.bam"⟩ (fun _ => false)
        "s_%#_sequence.txt" (some (⟨"y", 0, [18], [40, 40], 2⟩, []))).diag ∧
    ((parse_bamfile ⟨true, true, true, false, true, false, false, "in.bam"⟩ (fun _ => false)
        "s_%#_sequence.txt" (some (⟨"x", 65, [18], [40, 40], 2⟩, []))).state.map
          (fun st => st.unPaired.length)) = some 1 ∧
    ((parse_bamfile ⟨true, true, true, false, true, false, false, "in.bam"⟩ (fun _ => false)
        "s_%#_sequence.txt" (some (⟨"y", 0, [18], [40, 40], 2⟩, []))).state.map
          (fun st => st.unPaired.length)) = some 0 :=
  ⟨rfl, rfl, rfl⟩

/-- C3 (amended): at end-of-stream every entry remaining in the mate
buffer is appended, each exactly once, to the fallback/unpaired slot
(slot 2), leaving the mate slots untouched; the run summary consists of
exactly the total-seen and total-exported lines — no unmatched-mate
warning count is reported. -/
theorem c3_flush_and_summary (s : LoopState) (h : s.out.length = 3) :
    slotAt (flushUnpaired s) 2 = slotAt s 2 ++ s.unPaired.map Prod.snd ∧
    (slotAt (flushUnpaired s) 2).length = (slotAt s 2).length + s.unPaired.length ∧
    slotAt (flushUnpaired s) 0 = slotAt s 0 ∧
    slotAt (flushUnpaired s) 1 = slotAt s 1 ∧
    summaryOf (flushUnpaired s) =
      [toString s.all_seen ++ " sequences in the BAM file",
       toString s.exported ++ " sequences exported"] := by
  cases s with
  | mk a e up out =>
    obtain ⟨o0, o1, o2, ho⟩ := List.length_eq_three.mp h
    subst ho
    simp [flushUnpaired, slotAt, summaryOf]

/-- C3 witness for the amended statement: flushing a state with one
orphaned entry appends it once to slot 2 and reports the two counter
lines. -/
theorem c3_flush_and_summary_witness :
    slotAt (flushUnpaired ⟨2, 2, [("k", "e")], [[], [], ["w"]]⟩) 2 = ["w", "e"] ∧
    summaryOf (flushUnpaired ⟨2, 2, [("k", "e")], [[], [], ["w"]]⟩) =
      ["2 sequences in the BAM file", "2 sequences exported"] := by
  obtain ⟨h1, _h2, _h3, _h4, h5⟩ :=
    c3_flush_and_summary ⟨2, 2, [("k", "e")], [[], [], ["w"]]⟩ rfl
  exact ⟨h1.trans rfl, h5.trans rfl⟩

/-- If `initialize_output` returns no slots it printed a diagnostic. -/
theorem initialize_output_fail_diag (fe : String → Bool) (ow : Bool) (tpl : String)
    (lane : Int) :
    (initialize_output fe ow tpl lane).slots = [] →
    (initialize_output fe ow tpl lane).diag ≠ [] := by
  unfold initialize_output
  split
  · intro _; simp
  · split
    · intro _; simp
    · split
      · intro _; simp
      · split
        · intro _; simp
        · intro h; simp at h

/-- If router initialization returns no slots it printed a diagnostic. -/
theorem routerInit_fail_diag (cfg : Config) (fe : String → Bool) (tpl : String)
    (lane : Int) :
    (routerInit cfg fe tpl lane).slots = [] →
    (routerInit cfg fe tpl lane).diag ≠ [] := by
  unfold routerInit
  split
  · intro h; simp [initialize_paired_stdout] at h
  · split
    · intro h; simp [initialize_all_stdout] at h
    · exact initialize_output_fail_diag _ _ _ _

/-- C6 counterexample: the claim requires a NONZERO completion signal on
every fatal condition; on a failed `samopen` the program prints the
diagnostic, processes nothing — and `main` still returns 0. -/
theorem c6_counterexample :
    (parse_bamfile ⟨true, true, true, false, false, false, false, "missing.bam"⟩
        (fun _ => false) "s_%#_sequence.txt" none).diag =
      ["Could not open missing.bam"] ∧
    (parse_bamfile ⟨true, true, true, false, false, false, false, "missing.bam"⟩
        (fun _ => false) "s_%#_sequence.txt" none).state = none ∧
    (parse_bamfile ⟨true, true, true, false, false, false, false, "missing.bam"⟩
        (fun _ => false) "s_%#_sequence.txt" none).exit = 0 :=
  ⟨rfl, rfl, rfl⟩

/-- C6 (amended): every fatal condition — decoder open failure, or
output-unroutable router initialization — terminates the run immediately
with a descriptive diagnostic and no record processing occurs after the
failure; the process completion signal on these paths, however, is 0,
not nonzero. -/
theorem c6_fatal_paths (cfg : Config) (fe : String → Bool) (tpl : String) :
    ((parse_bamfile cfg fe tpl none).exit = 0 ∧
     (parse_bamfile cfg fe tpl none).diag = ["Could not open " ++ cfg.bamFilename] ∧
     (parse_bamfile cfg fe tpl none).state = none) ∧
    (∀ (first : BamRec) (rest : List BamRec),
      (routerInit cfg fe tpl (get_lane_id first.name)).slots = [] →
      (parse_bamfile cfg fe tpl (some (first, rest))).exit = 0 ∧
      (parse_bamfile cfg fe tpl (some (first, rest))).state = none ∧
      (parse_bamfile cfg fe tpl (some (first, rest))).diag ≠ []) := by
  refine ⟨⟨rfl, rfl, rfl⟩, ?_⟩
  intro first rest h
  have hdiag := routerInit_fail_diag cfg fe tpl (get_lane_id first.name) h
  have hempty : (routerInit cfg fe tpl (get_lane_id first.name)).slots.isEmpty = true := by
    rw [h]; rfl
  refine ⟨?_, ?_, ?_⟩ <;> simp [parse_bamfile, hempty, hdiag]

/-- C6 witness: a run whose template lacks `#` (router initialization
fails) aborts with a diagnostic, does not enter the record loop, and
exits 0. -/
theorem c6_fatal_paths_witness :
    (parse_bamfile ⟨true, true, true, false, false, false, false, "x.bam"⟩ (fun _ => false)
        "out.txt" (some (⟨"x", 0, [], [], 0⟩, []))).exit = 0 ∧
    (parse_bamfile ⟨true, true, true, false, false, false, false, "x.bam"⟩ (fun _ => false)
        "out.txt" (some (⟨"x", 0, [], [], 0⟩, []))).state = none ∧
    (parse_bamfile ⟨true, true, true, false, false, false, false, "x.bam"⟩ (fun _ => false)
        "out.txt" (some (⟨"x", 0, [], [], 0⟩, []))).diag ≠ [] := by
  obtain ⟨_h1, h2⟩ :=
    c6_fatal_paths ⟨true, true, true, false, false, false, false, "x.bam"⟩
      (fun _ => false) "out.txt"
  exact h2 ⟨"x", 0, [], [], 0⟩ [] (by decide)

/-- C4 counterexample: the claim says non-strict pairing identity removes
only the trailing digit, so `sample1` should map to `sample`; the code's
`name.erase(name.length()-2)` removes the final two characters, giving
`sampl`. -/
theorem c4_counterexample :
    pairing_identity false "sample1" = "sampl" ∧ "sampl" ≠ "sample" := by
  constructor
  · rfl
  · decide

/-- C4 (amended): in non-strict mode the pairing identity drops the final
TWO characters (the trailing digit and the non-digit before it) exactly
when the name has length at least 3, its last character is a digit and
its second-to-last is not; otherwise, and always in strict mode, the name
is unchanged. -/
theorem c4_mangle_behavior :
    (∀ name : String, pairing_identity true name = name) ∧
    (∀ (front : List Char) (c d : Char), front ≠ [] →
      c.isDigit = false → d.isDigit = true →
      pairing_identity false ⟨front ++ [c, d]⟩ = ⟨front⟩) ∧
    (∀ (front : List Char) (c d : Char), c.isDigit = true ∨ d.isDigit = false →
      pairing_identity false ⟨front ++ [c, d]⟩ = ⟨front ++ [c, d]⟩) ∧
    (∀ name : String, name.length < 3 → pairing_identity false name = name) := by
  refine ⟨fun name => by simp [pairing_identity], ?_, ?_, ?_⟩
  · intro front c d hf hc hd
    have hfl : 1 ≤ front.length := by
      have := List.length_pos.mpr hf
      omega
    have hlen : (front ++ [c, d]).length = front.length + 2 := by simp
    simp only [pairing_identity, if_neg Bool.false_ne_true, mangle]
    rw [hlen]
    rw [if_neg (by omega)]
    rw [show front.length + 2 - 1 = front.length + 1 by omega]
    rw [show front.length + 2 - 2 = front.length by omega]
    rw [getD_append_two_fst, getD_append_two_snd, hc, hd]
    simp [List.take_left]
  · intro front c d hcd
    have hlen : (front ++ [c, d]).length = front.length + 2 := by simp
    simp only [pairing_identity, if_neg Bool.false_ne_true, mangle]
    rw [hlen]
    by_cases hf : front.length + 2 < 3
    · rw [if_pos hf]
    · rw [if_neg hf]
      rw [show front.length + 2 - 1 = front.length + 1 by omega]
      rw [show front.length + 2 - 2 = front.length by omega]
      rw [getD_append_two_fst, getD_append_two_snd]
      rcases hcd with hc | hd
      · rw [hc]
        simp
      · rw [hd]
        simp
  · intro name h
    simp only [pairing_identity, if_neg Bool.false_ne_true, mangle]
    rw [if_pos (show name.data.length < 3 from h)]

/-- C4 witness for the amended statement: `sample1` maps to `sampl` (the
final two characters removed), `sample12` and the short name `b1` are
unchanged, and strict mode leaves `sample1` alone. -/
theorem c4_mangle_behavior_witness :
    pairing_identity false "sample1" = "sampl" ∧
    pairing_identity false "sample12" = "sample12" ∧
    pairing_identity false "b1" = "b1" ∧
    pairing_identity true "sample1" = "sample1" := by
  obtain ⟨hstrict, hdrop, hkeep, hshort⟩ := c4_mangle_behavior
  refine ⟨?_, ?_, ?_, hstrict "sample1"⟩
  · exact hdrop ['s', 'a', 'm', 'p', 'l'] 'e' '1' (by decide) (by decide) (by decide)
  · exact hkeep ['s', 'a', 'm', 'p', 'l', 'e'] '1' '2' (Or.inl (by decide))
  · exact hshort "b1" (by decide)

/-- C5: a record is exported (the exported counter increments) iff it
passes the three-gate inclusion policy; every record increments the seen
counter; and in particular with include-unaligned off an unmapped record
fails the policy, is written to no output slot, and leaves the exported
counter unchanged. -/
theorem c5_policy_gates (cfg : Config) (s : LoopState) (r : BamRec) :
    (step cfg s r).all_seen = s.all_seen + 1 ∧
    (step cfg s r).exported = s.exported + (if passesPolicy cfg r then 1 else 0) ∧
    (cfg.save_unaligned = false → hasFlag r bamFUNMAP = true →
      passesPolicy cfg r = false ∧ (step cfg s r).out = s.out ∧
      (step cfg s r).unPaired = s.unPaired ∧ (step cfg s r).exported = s.exported) := by
  refine ⟨step_all_seen cfg s r, ?_, ?_⟩
  · rw [step_exported, skipRecord_eq_not_passesPolicy]
    cases passesPolicy cfg r <;> simp
  · intro hu hm
    have hpass : passesPolicy cfg r = false := by simp [passesPolicy, hm, hu]
    have hskip : skipRecord cfg r = true := by
      rw [skipRecord_eq_not_passesPolicy, hpass]
      rfl
    rw [step_skip cfg s r hskip]
    exact ⟨hpass, rfl, rfl, rfl⟩

/-- C5 witness: a concrete unmapped record under include-unaligned=false
is not exported, writes nothing, and is still counted as seen. -/
theorem c5_policy_gates_witness :
    passesPolicy ⟨true, false, true, false, false, false, false, "x.bam"⟩
        ⟨"r", 4, [], [], 0⟩ = false ∧
    (step ⟨true, false, true, false, false, false, false, "x.bam"⟩
        ⟨0, 0, [], [[], [], []]⟩ ⟨"r", 4, [], [], 0⟩).out = [[], [], []] ∧
    (step ⟨true, false, true, false, false, false, false, "x.bam"⟩
        ⟨0, 0, [], [[], [], []]⟩ ⟨"r", 4, [], [], 0⟩).all_seen = 1 ∧
    (step ⟨true, false, true, false, false, false, false, "x.bam"⟩
        ⟨0, 0, [], [[], [], []]⟩ ⟨"r", 4, [], [], 0⟩).exported = 0 := by
  obtain ⟨h1, _h2, h3⟩ :=
    c5_policy_gates ⟨true, false, true, false, false, false, false, "x.bam"⟩
      ⟨0, 0, [], [[], [], []]⟩ ⟨"r", 4, [], [], 0⟩
  obtain ⟨hp, hout, _hbuf, hexp⟩ := h3 rfl (by decide)
  exact ⟨hp, hout, h1, hexp⟩

/-- C7: paired-to-files router initialization returns no slots exactly
when `%` is present in the template while the lane is 0, or the template
has no `#`, or (overwrite off) one of the two primary output files
already exists; on every failure path no file is created; and the result
never depends on the prior existence of the orphan (`_M`) file. -/
theorem c7_initialize_output (fe : String → Bool) (ow : Bool) (tpl : String) (lane : Int) :
    ((initialize_output fe ow tpl lane).slots = [] ↔
      ('%' ∈ tpl.data ∧ lane = 0) ∨ '#' ∉ tpl.data ∨
      (ow = false ∧ (fe (outFile tpl lane ['_', '1']) = true ∨
                     fe (outFile tpl lane ['_', '2']) = true))) ∧
    ((initialize_output fe ow tpl lane).slots = [] →
      (initialize_output fe ow tpl lane).created = []) ∧
    (∀ b : Bool,
      initialize_output
        (fun f => if f = outFile tpl lane ['_', 'M'] then b else fe f) ow tpl lane =
      initialize_output fe ow tpl lane) := by
  by_cases h1 : '%' ∈ tpl.data ∧ lane = 0
  · refine ⟨by simp [initialize_output, h1], by simp [initialize_output, h1],
      fun b => by simp [initialize_output, h1]⟩
  · by_cases h2 : '#' ∈ laneSubst tpl lane
    · have h2' : '#' ∈ tpl.data := (hash_mem_laneSubst_iff tpl lane).mp h2
      have hn2 : ¬('#' ∉ laneSubst tpl lane) := not_not_intro h2
      have h13 : outFile tpl lane ['_', '1'] ≠ outFile tpl lane ['_', 'M'] :=
        outFile_ne tpl lane _ _ h2 rfl (by decide)
      have h23 : outFile tpl lane ['_', '2'] ≠ outFile tpl lane ['_', 'M'] :=
        outFile_ne tpl lane _ _ h2 rfl (by decide)
      refine ⟨?_, ?_, ?_⟩
      · simp only [initialize_output, if_neg h1, if_neg hn2]
        cases how : ow
        · cases hfe1 : fe (outFile tpl lane ['_', '1'])
          · cases hfe2 : fe (outFile tpl lane ['_', '2'])
            · simp [h1, h2', hfe1, hfe2]
            · simp [h1, h2', hfe1, hfe2]
          · simp [h1, h2', hfe1]
        · simp [h1, h2']
      · simp only [initialize_output, if_neg h1, if_neg hn2]
        cases how : ow
        · cases hfe1 : fe (outFile tpl lane ['_', '1'])
          · cases hfe2 : fe (outFile tpl lane ['_', '2'])
            · simp [hfe1, hfe2]
            · simp [hfe1, hfe2]
          · simp [hfe1]
        · simp
      · intro b
        simp only [initialize_output, if_neg h1, if_neg hn2]
        simp [h13, h23]
    · have h2' : '#' ∉ tpl.data := fun hmem =>
        h2 ((hash_mem_laneSubst_iff tpl lane).mpr hmem)
      refine ⟨by simp [initialize_output, h1, h2, h2'], by simp [initialize_output, h1, h2],
        fun b => by simp [initialize_output, h1, h2]⟩

/-- C7 witness: with the default template, lane 7, overwrite off and an
existence test reporting only `s_7_1_sequence.txt` as present,
initialization fails and creates nothing. -/
theorem c7_initialize_output_witness :
    (initialize_output (fun f => decide (f = "s_7_1_sequence.txt")) false
        "s_%#_sequence.txt" 7).slots = [] ∧
    (initialize_output (fun f => decide (f = "s_7_1_sequence.txt")) false
        "s_%#_sequence.txt" 7).created = [] := by
  obtain ⟨hiff, hcre, _hinv⟩ :=
    c7_initialize_output (fun f => decide (f = "s_7_1_sequence.txt")) false
      "s_%#_sequence.txt" 7
  have hslots := hiff.mpr (Or.inr (Or.inr ⟨rfl, Or.inl (by decide)⟩))
  exact ⟨hslots, hcre hslots⟩

/-- C8: the lane id of a run is computed from the first record only, as
the integer parsed from the text between the first and second colon of
its read name; a name with no first colon, no second colon, or an empty
field between them yields lane 0; a field with no digits fails extraction
and yields 0; a digit field parses as its decimal value. -/
theorem c8_lane_id :
    (∀ (cfg : Config) (fe : String → Bool) (tpl : String) (first : BamRec)
        (rest : List BamRec),
      (parse_bamfile cfg fe tpl (some (first, rest))).lane = get_lane_id first.name) ∧
    (∀ name : String, ':' ∉ name.data → get_lane_id name = 0) ∧
    (∀ (pre tail : List Char), ':' ∉ pre → ':' ∉ tail →
      get_lane_id ⟨pre ++ ':' :: tail⟩ = 0) ∧
    (∀ (pre post : List Char), ':' ∉ pre →
      get_lane_id ⟨pre ++ ':' :: ':' :: post⟩ = 0) ∧
    (∀ (pre mid post : List Char), ':' ∉ pre → ':' ∉ mid → mid ≠ [] →
      get_lane_id ⟨pre ++ ':' :: mid ++ ':' :: post⟩ = istreamInt mid) ∧
    (∀ mid : List Char, (∀ c ∈ mid, c.isDigit = false) → istreamInt mid = 0) ∧
    (∀ ds : List Char, ds ≠ [] → (∀ c ∈ ds, c.isDigit = true) →
      istreamInt ds = (digitsToNat ds : Int)) := by
  refine ⟨?_, ?_, ?_, ?_, ?_, ?_, ?_⟩
  · intro cfg fe tpl first rest
    simp only [parse_bamfile]
    split <;> rfl
  · intro name h
    simp only [get_lane_id, findIdx?_not_mem name.data ':' h 0]
  · intro pre tail hpre htail
    have hsplit : (String.mk (pre ++ ':' :: tail)).data = pre ++ ':' :: tail := rfl
    simp only [get_lane_id, hsplit, findIdx?_first_mem pre ':' tail hpre 0]
    have hdrop : (pre ++ ':' :: tail).drop (pre.length + 0 + 1) = tail := by
      rw [show pre ++ ':' :: tail = (pre ++ [':']) ++ tail by simp]
      rw [show pre.length + 0 + 1 = (pre ++ [':']).length by simp]
      exact List.drop_left _ _
    rw [hdrop, findIdx?_not_mem tail ':' htail 0]
  · intro pre post hpre
    have hsplit : (String.mk (pre ++ ':' :: ':' :: post)).data = pre ++ ':' :: ':' :: post := rfl
    simp only [get_lane_id, hsplit, findIdx?_first_mem pre ':' (':' :: post) hpre 0]
    have hdrop : (pre ++ ':' :: ':' :: post).drop (pre.length + 0 + 1) = ':' :: post := by
      rw [show pre ++ ':' :: ':' :: post = (pre ++ [':']) ++ ':' :: post by simp]
      rw [show pre.length + 0 + 1 = (pre ++ [':']).length by simp]
      exact List.drop_left _ _
    rw [hdrop]
    rw [show List.findIdx? (fun c => decide (c = ':')) (':' :: post) 0 = some 0 by
      simp [List.findIdx?_cons]]
    rfl
  · intro pre mid post hpre hmid hne
    have hsplit : (String.mk (pre ++ ':' :: mid ++ ':' :: post)).data =
        pre ++ ':' :: mid ++ ':' :: post := rfl
    have hassoc : pre ++ ':' :: mid ++ ':' :: post = pre ++ ':' :: (mid ++ ':' :: post) := by
      simp
    have hdrop : (pre ++ ':' :: (mid ++ ':' :: post)).drop (pre.length + 0 + 1) =
        mid ++ ':' :: post := by
      rw [show pre ++ ':' :: (mid ++ ':' :: post) = (pre ++ [':']) ++ (mid ++ ':' :: post) by
        simp]
      rw [show pre.length + 0 + 1 = (pre ++ [':']).length by simp]
      exact List.drop_left _ _
    have hlen : mid.length + 0 ≠ 0 := by
      have := List.length_pos.mpr hne
      omega
    simp only [get_lane_id, hsplit, hassoc,
      findIdx?_first_mem pre ':' (mid ++ ':' :: post) hpre 0, hdrop,
      findIdx?_first_mem mid ':' post hmid 0, if_neg hlen]
    rw [show mid.length + 0 = mid.length by omega]
    rw [List.take_left mid (':' :: post)]
  · intro mid h
    have hsub : ∀ c ∈ mid.dropWhile isStreamSpace, c.isDigit = false := fun c hc =>
      h c (List.Sublist.mem hc (List.dropWhile_sublist _))
    simp only [istreamInt]
    cases hd : mid.dropWhile isStreamSpace with
    | nil => rfl
    | cons c rest =>
      have hrest : ∀ c' ∈ rest, c'.isDigit = false := fun c' hc' =>
        hsub c' (hd ▸ List.mem_cons_of_mem c hc')
      have hc : c.isDigit = false := hsub c (hd ▸ List.mem_cons_self c rest)
      by_cases hcm : c = '-'
      · simp [hcm, takeWhile_eq_nil_of_all_false rest _ hrest]
      · by_cases hcp : c = '+'
        · simp [hcm, hcp, takeWhile_eq_nil_of_all_false rest _ hrest]
        · simp [hcm, hcp, List.takeWhile_cons, hc]
  · intro ds hne hall
    cases ds with
    | nil => exact absurd rfl hne
    | cons c rest =>
      have hc : c.isDigit = true := hall c (List.mem_cons_self c rest)
      have hsp : isStreamSpace c = false := isStreamSpace_eq_false_of_digit c hc
      have hd : (c :: rest).dropWhile isStreamSpace = c :: rest := by
        simp [List.dropWhile_cons, hsp]
      have hcm : c ≠ '-' := by rintro rfl; simp at hc
      have hcp : c ≠ '+' := by rintro rfl; simp at hc
      have htw : (c :: rest).takeWhile Char.isDigit = c :: rest :=
        List.takeWhile_eq_self_iff.mpr hall
      simp only [istreamInt, hd]
      simp [hcm, hcp, htw]

/-- C8 witness: a concrete name with a numeric second field parses to its
value, a non-numeric field degrades to 0, and a run's lane is the first
record's lane id. -/
theorem c8_lane_id_witness :
    get_lane_id "ab:17:z" = 17 ∧
    get_lane_id "ab:xy:z" = 0 ∧
    (parse_bamfile ⟨true, true, true, false, true, false, false, "in.bam"⟩ (fun _ => false)
        "s_%#_sequence.txt" (some (⟨"ab:17:z", 0, [], [], 0⟩, []))).lane =
      get_lane_id "ab:17:z" := by
  obtain ⟨hrun, _h2, _h3, _h4, h5, h6, h7⟩ := c8_lane_id
  refine ⟨?_, ?_, hrun _ _ _ _ _⟩
  · have e1 : get_lane_id ⟨['a', 'b'] ++ ':' :: ['1', '7'] ++ ':' :: ['z']⟩ =
        istreamInt ['1', '7'] :=
      h5 ['a', 'b'] ['1', '7'] ['z'] (by decide) (by decide) (by decide)
    have e2 : istreamInt ['1', '7'] = (17 : Int) := by
      rw [h7 ['1', '7'] (by decide) (by decide)]
      rfl
    exact e1.trans e2
  · have e1 : get_lane_id ⟨['a', 'b'] ++ ':' :: ['x', 'y'] ++ ':' :: ['z']⟩ =
        istreamInt ['x', 'y'] :=
      h5 ['a', 'b'] ['x', 'y'] ['z'] (by decide) (by decide) (by decide)
    have e2 : istreamInt ['x', 'y'] = 0 := h6 ['x', 'y'] (by decide)
    exact e1.trans e2

/-- C9: in pairs-to-stdout mode the router is initialized to two slots
aliasing standard output plus the fixed file `unpaired_reads.fastq`,
which is opened (truncating) unconditionally: no template or lane
substitution, no existence check, and the overwrite flag plays no
role. -/
theorem c9_paired_stdout_fallback (cfg : Config) (fe : String → Bool) (tpl : String)
    (lane : Int) (h : cfg.stdout_pairs = true) :
    routerInit cfg fe tpl lane =
      ⟨[Sink.stdout, Sink.stdout, Sink.file "unpaired_reads.fastq"],
       ["unpaired_reads.fastq"], []⟩ := by
  simp [routerInit, h, initialize_paired_stdout]

/-- C9 witness: concrete pairs-to-stdout initialization, with an
existence test that reports every file as present and overwrite off. -/
theorem c9_paired_stdout_fallback_witness :
    routerInit ⟨true, true, true, false, true, false, false, "x.bam"⟩
        (fun _ => true) "s_%#_sequence.txt" 0 =
      ⟨[Sink.stdout, Sink.stdout, Sink.file "unpaired_reads.fastq"],
       ["unpaired_reads.fastq"], []⟩ :=
  c9_paired_stdout_fallback _ _ _ _ rfl

/-- C1: in a paired (3-slot) output mode, when the two mates of a key
both pass the policy — in either arrival order — the read-1 record's
formatted entry is written to mate-slot 0 and the read-2 record's to
mate-slot 1, and the buffered entry is removed from the mate buffer on
the match. -/
theorem c1_pair_emission (cfg : Config) (s : LoopState) (r1 r2 : BamRec)
    (hlen : s.out.length = 3)
    (hkey : keyOf cfg r2 = keyOf cfg r1)
    (hp1 : hasFlag r1 bamFPAIRED = true) (hp2 : hasFlag r2 bamFPAIRED = true)
    (hidx1 : get_read_idx r1 = 0) (hidx2 : get_read_idx r2 = 1)
    (hpass1 : passesPolicy cfg r1 = true) (hpass2 : passesPolicy cfg r2 = true)
    (hnone : lookupKey s.unPaired (keyOf cfg r1) = none) :
    (slotAt (processList cfg s [r1, r2]) 0 = slotAt s 0 ++ [formatEntry r1] ∧
     slotAt (processList cfg s [r1, r2]) 1 = slotAt s 1 ++ [formatEntry r2] ∧
     lookupKey (processList cfg s [r1, r2]).unPaired (keyOf cfg r1) = none) ∧
    (slotAt (processList cfg s [r2, r1]) 0 = slotAt s 0 ++ [formatEntry r1] ∧
     slotAt (processList cfg s [r2, r1]) 1 = slotAt s 1 ++ [formatEntry r2] ∧
     lookupKey (processList cfg s [r2, r1]).unPaired (keyOf cfg r1) = none) := by
  have hskip1 : skipRecord cfg r1 = false := by
    rw [skipRecord_eq_not_passesPolicy, hpass1]; rfl
  have hskip2 : skipRecord cfg r2 = false := by
    rw [skipRecord_eq_not_passesPolicy, hpass2]; rfl
  have hlen1 : s.out.length ≠ 1 := by omega
  obtain ⟨o0, o1, o2, ho⟩ := List.length_eq_three.mp hlen
  have hnone2 : lookupKey s.unPaired (keyOf cfg r2) = none := by rw [hkey]; exact hnone
  constructor
  · have e1 := step_insert cfg s r1 hskip1 hlen1 hp1 hnone
    have hs' : (step cfg s r1).out = s.out := by rw [e1]
    have hlook : lookupKey (step cfg s r1).unPaired (keyOf cfg r2) =
        some (formatEntry r1) := by
      rw [e1, hkey]
      exact lookupKey_insert_self _ _ _ hnone
    have e2 := step_match1 cfg (step cfg s r1) r2 (formatEntry r1) hskip2
      (by rw [hs']; exact hlen1) hp2 hlook hidx2
    have hproc : processList cfg s [r1, r2] = step cfg (step cfg s r1) r2 := rfl
    refine ⟨?_, ?_, ?_⟩
    · rw [hproc, e2]
      simp only [slotAt]
      rw [hs', ho]
      simp [writeOut]
    · rw [hproc, e2]
      simp only [slotAt]
      rw [hs', ho]
      simp [writeOut]
    · rw [hproc, e2]
      show lookupKey (eraseKey (step cfg s r1).unPaired (keyOf cfg r2)) (keyOf cfg r1) = none
      rw [hkey]
      exact lookupKey_erase_self _ _
  · have e1 := step_insert cfg s r2 hskip2 hlen1 hp2 hnone2
    have hs' : (step cfg s r2).out = s.out := by rw [e1]
    have hlook : lookupKey (step cfg s r2).unPaired (keyOf cfg r1) =
        some (formatEntry r2) := by
      rw [e1, hkey]
      exact lookupKey_insert_self _ _ _ hnone
    have e2 := step_match0 cfg (step cfg s r2) r1 (formatEntry r2) hskip1
      (by rw [hs']; exact hlen1) hp1 hlook hidx1
    have hproc : processList cfg s [r2, r1] = step cfg (step cfg s r2) r1 := rfl
    refine ⟨?_, ?_, ?_⟩
    · rw [hproc, e2]
      simp only [slotAt]
      rw [hs', ho]
      simp [writeOut]
    · rw [hproc, e2]
      simp only [slotAt]
      rw [hs', ho]
      simp [writeOut]
    · rw [hproc, e2]
      show lookupKey (eraseKey (step cfg s r2).unPaired (keyOf cfg r1)) (keyOf cfg r1) = none
      exact lookupKey_erase_self _ _

/-- C1 witness: two concrete mates of key `x` (read 1 arriving first or
second) end with the read-1 entry as the sole write to slot 0, the
read-2 entry as the sole write to slot 1, and the buffer empty of the
key. -/
theorem c1_pair_emission_witness :
    (slotAt (processList ⟨true, true, true, false, true, false, false, "in.bam"⟩
        ⟨0, 0, [], [[], [], []]⟩ [⟨"x", 65, [18], [40, 40], 2⟩, ⟨"x", 129, [18], [40, 40], 2⟩]) 0 =
      [formatEntry ⟨"x", 65, [18], [40, 40], 2⟩] ∧
     slotAt (processList ⟨true, true, true, false, true, false, false, "in.bam"⟩
        ⟨0, 0, [], [[], [], []]⟩ [⟨"x", 65, [18], [40, 40], 2⟩, ⟨"x", 129, [18], [40, 40], 2⟩]) 1 =
      [formatEntry ⟨"x", 129, [18], [40, 40], 2⟩]) ∧
    (slotAt (processList ⟨true, true, true, false, true, false, false, "in.bam"⟩
        ⟨0, 0, [], [[], [], []]⟩ [⟨"x", 129, [18], [40, 40], 2⟩, ⟨"x", 65, [18], [40, 40], 2⟩]) 0 =
      [formatEntry ⟨"x", 65, [18], [40, 40], 2⟩] ∧
     slotAt (processList ⟨true, true, true, false, true, false, false, "in.bam"⟩
        ⟨0, 0, [], [[], [], []]⟩ [⟨"x", 129, [18], [40, 40], 2⟩, ⟨"x", 65, [18], [40, 40], 2⟩]) 1 =
      [formatEntry ⟨"x", 129, [18], [40, 40], 2⟩]) := by
  obtain ⟨⟨ha0, ha1, _⟩, ⟨hb0, hb1, _⟩⟩ :=
    c1_pair_emission ⟨true, true, true, false, true, false, false, "in.bam"⟩
      ⟨0, 0, [], [[], [], []]⟩ ⟨"x", 65, [18], [40, 40], 2⟩ ⟨"x", 129, [18], [40, 40], 2⟩
      rfl rfl rfl rfl rfl rfl rfl rfl rfl
  exact ⟨⟨ha0, ha1⟩, ⟨hb0, hb1⟩⟩

/-- C10: a record excluded by the policy leaves the mate buffer (and all
output slots) untouched; consequently when exactly one mate of a key
passes the policy, that mate's formatted entry is still buffered at
end-of-stream, the mate-slot write logs are exactly those of the stream
without it, and the flush writes its entry to the fallback slot 2. -/
theorem c10_excluded_mate (cfg : Config) (s : LoopState) (xs ys : List BamRec) (r : BamRec)
    (hlen : s.out.length = 3)
    (hp : hasFlag r bamFPAIRED = true)
    (hpass : passesPolicy cfg r = true)
    (hnone : lookupKey s.unPaired (keyOf cfg r) = none)
    (hothers : ∀ r' ∈ xs ++ ys, keyOf cfg r' = keyOf cfg r →
      ¬(passesPolicy cfg r' = true ∧ hasFlag r' bamFPAIRED = true)) :
    (∀ (t : LoopState) (q : BamRec), passesPolicy cfg q = false →
      (step cfg t q).unPaired = t.unPaired ∧ (step cfg t q).out = t.out) ∧
    lookupKey (processList cfg s (xs ++ r :: ys)).unPaired (keyOf cfg r) =
      some (formatEntry r) ∧
    (processList cfg s (xs ++ r :: ys)).out = (processList cfg s (xs ++ ys)).out ∧
    formatEntry r ∈ slotAt (flushUnpaired (processList cfg s (xs ++ r :: ys))) 2 := by
  have conj1 : ∀ (t : LoopState) (q : BamRec), passesPolicy cfg q = false →
      (step cfg t q).unPaired = t.unPaired ∧ (step cfg t q).out = t.out := by
    intro t q hq
    rw [step_skip cfg t q (skip_of_not_passes cfg q hq)]
    exact ⟨rfl, rfl⟩
  have hxs : ∀ r' ∈ xs, keyOf cfg r' = keyOf cfg r →
      ¬(passesPolicy cfg r' = true ∧ hasFlag r' bamFPAIRED = true) :=
    fun r' hm => hothers r' (List.mem_append_left _ hm)
  have hys : ∀ r' ∈ ys, keyOf cfg r' = keyOf cfg r →
      ¬(passesPolicy cfg r' = true ∧ hasFlag r' bamFPAIRED = true) :=
    fun r' hm => hothers r' (List.mem_append_right _ hm)
  have hsplit1 : processList cfg s (xs ++ r :: ys) =
      processList cfg (step cfg (processList cfg s xs) r) ys := by
    rw [processList, List.foldl_append]
    rfl
  have hsplit2 : processList cfg s (xs ++ ys) =
      processList cfg (processList cfg s xs) ys := by
    rw [processList, List.foldl_append]
    rfl
  have hmidlen : (processList cfg s xs).out.length = 3 := by
    rw [processList_out_length]; exact hlen
  have hmidnone : lookupKey (processList cfg s xs).unPaired (keyOf cfg r) = none :=
    processList_lookup_none cfg (keyOf cfg r) xs s hnone hxs
  have hskipr : skipRecord cfg r = false := by
    rw [skipRecord_eq_not_passesPolicy, hpass]; rfl
  have e1 := step_insert cfg (processList cfg s xs) r hskipr (by omega) hp hmidnone
  have hout0 : (step cfg (processList cfg s xs) r).out = (processList cfg s xs).out := by
    rw [e1]
  have h1' : lookupKey (step cfg (processList cfg s xs) r).unPaired (keyOf cfg r) =
      some (formatEntry r) := by
    rw [e1]
    exact lookupKey_insert_self _ _ _ hmidnone
  have hexc0 : ∀ k', k' ≠ keyOf cfg r →
      lookupKey (step cfg (processList cfg s xs) r).unPaired k' =
      lookupKey (processList cfg s xs).unPaired k' := by
    intro k' hk'
    rw [e1]
    exact lookupKey_insert_ne _ _ _ _ hk'
  have hlen0 : (step cfg (processList cfg s xs) r).out.length = 3 := by
    rw [hout0]; exact hmidlen
  obtain ⟨hOut, hLook⟩ := processList_sim cfg (keyOf cfg r) (formatEntry r) ys
    (step cfg (processList cfg s xs) r) (processList cfg s xs)
    hout0 hlen0 h1' hmidnone hexc0 hys
  have hlenT : (processList cfg (step cfg (processList cfg s xs) r) ys).out.length = 3 := by
    rw [processList_out_length]; exact hlen0
  refine ⟨conj1, ?_, ?_, ?_⟩
  · rw [hsplit1]; exact hLook
  · rw [hsplit1, hsplit2]; exact hOut
  · rw [hsplit1, flush_slot2 _ hlenT]
    exact List.mem_append_right _ (mem_snd_of_lookupKey _ _ _ hLook)

/-- C10 witness: a single passing paired record (an orphan) remains
buffered through the loop and its entry reaches the fallback slot on
flush. -/
theorem c10_excluded_mate_witness :
    lookupKey (processList ⟨true, true, true, false, true, false, false, "in.bam"⟩
        ⟨0, 0, [], [[], [], []]⟩ [⟨"x", 65, [18], [40, 40], 2⟩]).unPaired
      (keyOf ⟨true, true, true, false, true, false, false, "in.bam"⟩
        ⟨"x", 65, [18], [40, 40], 2⟩) = some (formatEntry ⟨"x", 65, [18], [40, 40], 2⟩) ∧
    formatEntry ⟨"x", 65, [18], [40, 40], 2⟩ ∈
      slotAt (flushUnpaired (processList ⟨true, true, true, false, true, false, false, "in.bam"⟩
        ⟨0, 0, [], [[], [], []]⟩ [⟨"x", 65, [18], [40, 40], 2⟩])) 2 := by
  obtain ⟨_, h2, _, h4⟩ :=
    c10_excluded_mate ⟨true, true, true, false, true, false, false, "in.bam"⟩
      ⟨0, 0, [], [[], [], []]⟩ [] [] ⟨"x", 65, [18], [40, 40], 2⟩
      rfl rfl rfl rfl (by simp)
  exact ⟨h2, h4⟩

end Bam2Fastq
